import Mathlib

/-
Verification of the vault-alert-bot event-correlation engine.

This file shallowly embeds the core of `src/bot.py` (class `ThreadSafeVaultData`,
class `HyperliquidAdvancedBot`, class `TokenCategorizer`) and the position-change
analyzer of `src/azure_deployment/confluence_engine.py`, and proves the frozen
claims about them.

Modelling conventions:
- Python `Decimal` sizes and `datetime` instants are embedded as rationals;
  window and cooldown durations are in minutes, and the health-tracker
  reactivation cutoff of 1800 seconds is written as 30 minutes.
- Python dicts are embedded as insertion-ordered association lists with
  overwrite-in-place update (`ainsert`) and first-match lookup (`alookup`).
- The several `datetime.now()` calls made while one change event is processed
  are identified with a single logical instant, the timestamp of that event.
- Fallible fetches are `Option`: `none` is an API failure, `some` a snapshot.
-/

set_option maxHeartbeats 1000000

namespace VaultBot

/-- Association-list lookup: first entry whose key matches, as for a Python dict. -/
def alookup {α : Type} : List (String × α) → String → Option α
  | [], _ => none
  | (k0, v0) :: t, k => if k0 = k then some v0 else alookup t k

/-- Association-list update with Python-dict semantics: overwrite the existing
entry in place, or append a new entry at the end. -/
def ainsert {α : Type} : List (String × α) → String → α → List (String × α)
  | [], k, v => [(k, v)]
  | (k0, v0) :: t, k, v => if k0 = k then (k, v) :: t else (k0, v0) :: ainsert t k v

/-- Embedding of the `VaultInfo` dataclass of `src/bot.py` (monitored entity). -/
structure VaultInfo where
  address : String
  name : String
  lastSuccessfulCheck : Option ℚ
  consecutiveFailures : Nat
  isActive : Bool
  firstScanCompleted : Bool
  totalApiCalls : Nat
  avgResponseTime : ℚ
deriving DecidableEq

/-- A fresh `VaultInfo(address, name)` with the dataclass field defaults. -/
def VaultInfo.create (address name : String) : VaultInfo :=
  { address := address, name := name, lastSuccessfulCheck := none,
    consecutiveFailures := 0, isActive := true, firstScanCompleted := false,
    totalApiCalls := 0, avgResponseTime := 0 }

/-- A holdings snapshot for one entity: instrument symbol to stored
(absolute) position size.  `PositionData` is reduced to its `size` field, the
only field the change-detection logic reads. -/
abbrev Snapshot := List (String × ℚ)

/-- Embedding of the `TradeEvent` dataclass of `src/bot.py`. -/
structure TradeEvent where
  vaultName : String
  vaultAddress : String
  coin : String
  oldSize : ℚ
  newSize : ℚ
  timestamp : ℚ
deriving DecidableEq

/-- The `size_change` property: `abs(new_size - old_size)`. -/
def TradeEvent.sizeChange (e : TradeEvent) : ℚ := |e.newSize - e.oldSize|

/-- The `trade_type` property: OPEN when old is 0, CLOSE when new is 0,
INCREASE when the size grew, DECREASE otherwise. -/
def TradeEvent.tradeType (e : TradeEvent) : String :=
  if e.oldSize = 0 then "OPEN"
  else if e.newSize = 0 then "CLOSE"
  else if e.oldSize < e.newSize then "INCREASE"
  else "DECREASE"

/-- Embedding of the `ThemeEvent` dataclass of `src/bot.py`. -/
structure ThemeEvent where
  theme : String
  vaultName : String
  vaultAddress : String
  coin : String
  tradeType : String
  sizeChange : ℚ
  timestamp : ℚ
deriving DecidableEq

/-- The static token-category table of `TokenCategorizer.__init__`, in source
order: category name paired with its token list. -/
def categoryTokens : List (String × List String) :=
  [("AI", ["ARKM", "FET", "RNDR", "TAO", "OCEAN", "GLM", "AI", "AGIX", "PHB", "CTX", "AKT", "NMR"]),
   ("GAMING", ["IMX", "GALA", "SAND", "MANA", "AXS", "ILV", "ENJ", "FLOW", "RON", "YGG", "PIXEL", "BEAM"]),
   ("DEFI", ["UNI", "AAVE", "SNX", "CRV", "COMP", "YFI", "BAL", "1INCH", "DYDX", "GMX", "GNS", "JOE"]),
   ("MEME", ["DOGE", "SHIB", "PEPE", "FLOKI", "BONK", "WIF", "BOME", "POPCAT", "MEW", "PNUT"]),
   ("LAYER1", ["BTC", "ETH", "SOL", "ADA", "DOT", "ATOM", "NEAR", "FTM", "ALGO", "MATIC", "AVAX", "LUNA"]),
   ("LAYER2", ["ARB", "OP", "MATIC", "LRC", "ZK", "METIS", "BOBA", "MANTA"]),
   ("ORACLES", ["LINK", "BAND", "TRB", "API3", "UMA", "DIA"]),
   ("INFRASTRUCTURE", ["GRT", "FIL", "AR", "STORJ", "THETA", "LPT", "ANKR"]),
   ("PRIVACY", ["XMR", "ZEC", "SCRT", "ROSE", "NYM", "RAIL"]),
   ("RWA", ["RIO", "TRU", "CFG", "MKR", "RWA", "ONDO", "POLYX"])]

/-- The reverse lookup `token_to_category`, built by iterating the categories
in order and overwriting on duplicate tokens, exactly as in
`TokenCategorizer.__init__`. -/
def tokenToCategory : List (String × String) :=
  categoryTokens.foldl (fun acc p => p.2.foldl (fun acc2 t => ainsert acc2 t.toUpper p.1) acc) []

/-- Embedding of `TokenCategorizer.get_token_category`. -/
def getTokenCategory (token : String) : Option String :=
  alookup tokenToCategory token.toUpper

/-- Alerts emitted to the external notifier: `send_confluence_alert` and
`send_theme_alert` payloads. -/
inductive Alert where
  | confluence (trigger : TradeEvent) (group : List TradeEvent)
  | theme (theme : String) (trigger : TradeEvent) (events : List ThemeEvent)
deriving DecidableEq

/-- Embedding of the `ThreadSafeVaultData` shared state. -/
structure VaultData where
  vaults : List (String × VaultInfo)
  previousPositions : List (String × Snapshot)
  lastAlerts : List (String × List (String × ℚ))
  tradeEvents : List TradeEvent
  themeEvents : List ThemeEvent
  confluenceThreshold : Nat
  confluenceWindowMinutes : ℚ
  cooldownMinutes : ℚ
  themeAlertsEnabled : Bool
  themeThreshold : Nat
  themeWindowMinutes : ℚ
deriving DecidableEq

/-- The `ThreadSafeVaultData.__init__` defaults (before any persisted data is
loaded): threshold 1, window 10 minutes, cooldown 5 minutes, theme alerts on,
theme threshold 2, theme window 15 minutes. -/
def initialVaultData : VaultData :=
  { vaults := [], previousPositions := [], lastAlerts := [], tradeEvents := [],
    themeEvents := [], confluenceThreshold := 1, confluenceWindowMinutes := 10,
    cooldownMinutes := 5, themeAlertsEnabled := true, themeThreshold := 2,
    themeWindowMinutes := 15 }

/-- Hexadecimal digit test for the character class `[a-fA-F0-9]`. -/
def isHexChar (c : Char) : Bool :=
  (decide ('0' ≤ c) && decide (c ≤ '9')) ||
    (decide ('a' ≤ c) && decide (c ≤ 'f')) ||
    (decide ('A' ≤ c) && decide (c ≤ 'F'))

/-- The address format the source documents ("0x followed by 40 hex
characters"): the string is exactly `0x` plus forty hexadecimal digits. -/
def isCanonicalAddress (s : String) : Bool :=
  match s.data with
  | '0' :: 'x' :: rest => rest.length == 40 && rest.all isHexChar
  | _ => false

/-- Embedding of `BotConfig.HYPERLIQUID_ADDRESS_PATTERN.match(address)` with
pattern `^0x[a-fA-F0-9]{40}$`.  Python `re.match` anchors at the start, and `$`
matches at the end of the string or just before a newline at the end of the
string, so a single trailing newline after the forty hex digits is accepted. -/
def pyMatchAddress (s : String) : Bool :=
  isCanonicalAddress s ||
    (s.data.getLast? == some '\n' && isCanonicalAddress (String.mk s.data.dropLast))

/-- Embedding of `ThreadSafeVaultData.add_vault`: validate the address format,
reject a duplicate display name, reject a duplicate address compared
case-insensitively, otherwise register the vault and reset its previous
positions and cooldown entries.  The Python early returns are written as
nested conditionals. -/
def addVault (s : VaultData) (address name : String) : VaultData × Bool :=
  if pyMatchAddress address then
    if (alookup s.vaults name).isSome then (s, false)
    else if s.vaults.any (fun p => p.2.address.toLower == address.toLower) then (s, false)
    else
      let vaults := ainsert s.vaults name (VaultInfo.create address name)
      let prevs := ainsert s.previousPositions address []
      let alerts := ainsert s.lastAlerts address []
      ({ s with vaults := vaults, previousPositions := prevs, lastAlerts := alerts }, true)
  else (s, false)

/-- Update the first vault (in registry order) whose address matches, as the
`for vault in self._vaults.values(): ... break` loops do. -/
def updateFirstByAddress (f : VaultInfo → VaultInfo) (a : String) :
    List (String × VaultInfo) → List (String × VaultInfo)
  | [] => []
  | (n, v) :: t => if v.address = a then (n, f v) :: t else (n, v) :: updateFirstByAddress f a t

/-- First vault (in registry order) whose address matches. -/
def findVaultByAddress (a : String) : List (String × VaultInfo) → Option VaultInfo
  | [] => none
  | (_, v) :: t => if v.address = a then some v else findVaultByAddress a t

/-- The per-vault update of `mark_vault_failure`: increment the consecutive
failure count and deactivate once it reaches 3. -/
def failureUpdate (v : VaultInfo) : VaultInfo :=
  let f := v.consecutiveFailures + 1
  { v with consecutiveFailures := f, isActive := if 3 ≤ f then false else v.isActive }

/-- Embedding of `ThreadSafeVaultData.mark_vault_failure`. -/
def markVaultFailure (a : String) (s : VaultData) : VaultData :=
  { s with vaults := updateFirstByAddress failureUpdate a s.vaults }

/-- The per-vault update of `mark_vault_success`: reset failures, record the
success instant, reactivate, and update the response-time running mean. -/
def successUpdate (now rt : ℚ) (v : VaultInfo) : VaultInfo :=
  let total := v.totalApiCalls + 1
  { v with consecutiveFailures := 0, lastSuccessfulCheck := some now, isActive := true,
           totalApiCalls := total,
           avgResponseTime := if total = 1 then rt
             else (v.avgResponseTime * ((total : ℚ) - 1) + rt) / (total : ℚ) }

/-- Embedding of `ThreadSafeVaultData.mark_vault_success`. -/
def markVaultSuccess (a : String) (now rt : ℚ) (s : VaultData) : VaultData :=
  { s with vaults := updateFirstByAddress (successUpdate now rt) a s.vaults }

/-- Embedding of `ThreadSafeVaultData.complete_first_scan`. -/
def completeFirstScan (a : String) (s : VaultData) : VaultData :=
  { s with vaults := updateFirstByAddress (fun v => { v with firstScanCompleted := true }) a s.vaults }

/-- The nested cooldown lookup `self._last_alerts[address][coin]`. -/
def lookupLastAlert (s : VaultData) (a c : String) : Option ℚ :=
  match alookup s.lastAlerts a with
  | none => none
  | some m => alookup m c

/-- Embedding of `ThreadSafeVaultData.is_cooldown_active`: true when a last
alert is recorded for the pair and `now` lies before that alert plus the
cooldown duration. -/
def isCooldownActive (now : ℚ) (a c : String) (s : VaultData) : Bool :=
  match lookupLastAlert s a c with
  | none => false
  | some t => decide (now < t + s.cooldownMinutes)

/-- Embedding of `ThreadSafeVaultData.set_cooldown`: record `now` as the last
alert instant for the pair. -/
def setCooldown (now : ℚ) (a c : String) (s : VaultData) : VaultData :=
  let inner := (alookup s.lastAlerts a).getD []
  { s with lastAlerts := ainsert s.lastAlerts a (ainsert inner c now) }

/-- Embedding of `ThreadSafeVaultData.add_trade_event`: append, then drop
events at or before `now` minus the confluence window. -/
def addTradeEvent (now : ℚ) (e : TradeEvent) (s : VaultData) : VaultData :=
  let evs := (s.tradeEvents ++ [e]).filter
    (fun x => decide (now - s.confluenceWindowMinutes < x.timestamp))
  { s with tradeEvents := evs }

/-- Embedding of `ThreadSafeVaultData.get_confluence_events`: events for this
coin strictly newer than the window cutoff. -/
def getConfluenceEvents (coin : String) (t : ℚ) (s : VaultData) : List TradeEvent :=
  s.tradeEvents.filter
    (fun e => decide (e.coin = coin) && decide (t - s.confluenceWindowMinutes < e.timestamp))

/-- Embedding of `ThreadSafeVaultData.add_theme_event`. -/
def addThemeEvent (now : ℚ) (e : ThemeEvent) (s : VaultData) : VaultData :=
  let evs := (s.themeEvents ++ [e]).filter
    (fun x => decide (now - s.themeWindowMinutes < x.timestamp))
  { s with themeEvents := evs }

/-- Embedding of `ThreadSafeVaultData.get_theme_events`. -/
def getThemeEvents (theme : String) (t : ℚ) (s : VaultData) : List ThemeEvent :=
  s.themeEvents.filter
    (fun e => decide (e.theme = theme) && decide (t - s.themeWindowMinutes < e.timestamp))

/-- Embedding of `ThreadSafeVaultData.get_vault_by_name`. -/
def getVaultByName (s : VaultData) (name : String) : Option VaultInfo :=
  alookup s.vaults name

/-- Embedding of `ThreadSafeVaultData.update_previous_positions`. -/
def updatePreviousPositions (a : String) (m : Snapshot) (s : VaultData) : VaultData :=
  { s with previousPositions := ainsert s.previousPositions a m }

/-- Number of distinct vault names among a list of events: embeds
`len(set(e.vault_name for e in events))`. -/
def uniqueVaultCount (es : List TradeEvent) : Nat :=
  ((es.map TradeEvent.vaultName).dedup).length

/-- Projected unique-entity count of the two-phase counting step: distinct
names already in the window, plus one when the triggering name is new. -/
def projectedUniqueCount (names : List String) (v : String) : Nat :=
  names.dedup.length + (if v ∈ names then 0 else 1)

/-- The instrument-detector projected total for an event against a state,
before the event is inserted. -/
def confluenceProjectedTotal (s : VaultData) (e : TradeEvent) : Nat :=
  projectedUniqueCount ((getConfluenceEvents e.coin e.timestamp s).map TradeEvent.vaultName)
    e.vaultName

/-- The theme-detector projected total for an event against a state, keyed by
the resolved theme, before the theme event is inserted. -/
def themeProjectedTotal (s : VaultData) (cat : String) (e : TradeEvent) : Nat :=
  projectedUniqueCount ((getThemeEvents cat e.timestamp s).map ThemeEvent.vaultName)
    e.vaultName

/-- The ThemeEvent built from a trade event and its resolved category in
`check_theme_confluence`. -/
def mkThemeEvent (cat : String) (e : TradeEvent) : ThemeEvent :=
  { theme := cat, vaultName := e.vaultName, vaultAddress := e.vaultAddress,
    coin := e.coin, tradeType := e.tradeType, sizeChange := e.sizeChange,
    timestamp := e.timestamp }

/-- Embedding of `ThreadSafeVaultData.check_theme_confluence`: classify the
instrument; when classified, count unique vaults in the theme window before
inserting, add one when the triggering vault is new, insert the theme event,
and return the whole window when the theme threshold is met. -/
def checkThemeConfluence (e : TradeEvent) (s : VaultData) :
    VaultData × Option (String × List ThemeEvent) :=
  match getTokenCategory e.coin with
  | none => (s, none)
  | some cat =>
    let existing := getThemeEvents cat e.timestamp s
    let existingUnique := ((existing.map ThemeEvent.vaultName).dedup).length
    let alreadyCounted := existing.any (fun x => x.vaultName == e.vaultName)
    let total := existingUnique + (if alreadyCounted then 0 else 1)
    let s1 := addThemeEvent e.timestamp (mkThemeEvent cat e) s
    if s.themeThreshold ≤ total then (s1, some (cat, getThemeEvents cat e.timestamp s1))
    else (s1, none)

/-- Stored size of a coin in a snapshot, defaulting to 0 when absent:
`current_pos.size if current_pos else Decimal(0)`. -/
def getSize (m : Snapshot) (c : String) : ℚ := (alookup m c).getD 0

/-- The union of coins present in either snapshot:
`set(current_positions.keys()) | set(previous_positions.keys())`. -/
def unionCoins (cur prev : Snapshot) : List String :=
  (cur.map Prod.fst ++ prev.map Prod.fst).dedup

/-- The change-detection test of `check_vault_changes` for one coin: compare
the defaulted sizes and build the TradeEvent when they differ. -/
def detectedEvent (vault : VaultInfo) (now : ℚ) (cur prev : Snapshot) (coin : String) :
    Option TradeEvent :=
  if getSize cur coin = getSize prev coin then none
  else some { vaultName := vault.name, vaultAddress := vault.address, coin := coin,
              oldSize := getSize prev coin, newSize := getSize cur coin, timestamp := now }

/-- The two-phase confluence evaluation of `check_vault_changes` (source lines
1379 to 1405): query the window before inserting the triggering event, count
distinct vaults, add one only when the triggering vault is absent, insert the
event, and when the threshold is met re-query and return the full group. -/
def evaluateConfluence (e : TradeEvent) (s : VaultData) :
    VaultData × Option (List TradeEvent) :=
  let existing := getConfluenceEvents e.coin e.timestamp s
  let existingUnique := uniqueVaultCount existing
  let alreadyCounted := existing.any (fun x => x.vaultName == e.vaultName)
  let total := existingUnique + (if alreadyCounted then 0 else 1)
  let s1 := addTradeEvent e.timestamp e s
  if s.confluenceThreshold ≤ total then
    (s1, some (getConfluenceEvents e.coin e.timestamp s1))
  else (s1, none)

/-- The cooldown write-back after a confluence alert: set the cooldown for the
address of every resolvable vault named in the alert group. -/
def setGroupCooldowns (now : ℚ) (coin : String) (group : List TradeEvent)
    (s : VaultData) : VaultData :=
  group.foldl (fun st ev =>
    match getVaultByName st ev.vaultName with
    | some v => setCooldown now v.address coin st
    | none => st) s

/-- The theme-detection tail of the per-coin loop body: run
`check_theme_confluence` when theme alerts are enabled and emit a theme alert
when the returned group has enough distinct vaults. -/
def themeStage (e : TradeEvent) (s : VaultData) (alerts : List Alert) :
    VaultData × List Alert :=
  if s.themeAlertsEnabled then
    match checkThemeConfluence e s with
    | (s3, some (theme, tevents)) =>
        if s3.themeThreshold ≤ ((tevents.map ThemeEvent.vaultName).dedup).length then
          (s3, alerts ++ [Alert.theme theme e tevents])
        else (s3, alerts)
    | (s3, none) => (s3, alerts)
  else (s, alerts)

/-- The body of the per-coin loop of `check_vault_changes`: skip when the size
is unchanged, skip when the pair is on cooldown, otherwise run the two-phase
confluence evaluation, write group-wide cooldowns on an alert, and run the
theme stage. -/
def processCoin (vault : VaultInfo) (now : ℚ) (cur prev : Snapshot) (s : VaultData)
    (coin : String) : VaultData × List Alert :=
  match detectedEvent vault now cur prev coin with
  | none => (s, [])
  | some e =>
    if isCooldownActive now vault.address coin s then (s, [])
    else
      let p := evaluateConfluence e s
      match p.2 with
      | some group =>
          themeStage e (setGroupCooldowns now coin group p.1) [Alert.confluence e group]
      | none => themeStage e p.1 []

/-- One step of the per-coin loop fold. -/
def processStep (vault : VaultInfo) (now : ℚ) (cur prev : Snapshot)
    (acc : VaultData × List Alert) (c : String) : VaultData × List Alert :=
  let r := processCoin vault now cur prev acc.1 c
  (r.1, acc.2 ++ r.2)

/-- Embedding of `HyperliquidAdvancedBot.check_vault_changes`: skip inactive
vaults and failed fetches; on the first successful poll store the snapshot and
set the first-scan flag without emitting anything; otherwise run the per-coin
loop over the union of coins and finally store the current snapshot as the
previous positions. -/
def checkVaultChanges (now : ℚ) (vault : VaultInfo) (fetched : Option Snapshot)
    (s : VaultData) : VaultData × List Alert :=
  if vault.isActive = false then (s, [])
  else
    match fetched with
    | none => (s, [])
    | some cur =>
      let prev := (alookup s.previousPositions vault.address).getD []
      if vault.firstScanCompleted = false then
        (completeFirstScan vault.address (updatePreviousPositions vault.address cur s), [])
      else
        let res := (unionCoins cur prev).foldl (processStep vault now cur prev) (s, [])
        (updatePreviousPositions vault.address cur res.1, res.2)

/-- The per-vault reactivation test of `health_monitor_loop`: a deactivated
vault with at least 3 consecutive failures and a recorded last success more
than 30 minutes (1800 seconds) old is reactivated with its failure count
reset. -/
def reactivateVault (now : ℚ) (v : VaultInfo) : VaultInfo :=
  if v.isActive = false ∧ 3 ≤ v.consecutiveFailures then
    match v.lastSuccessfulCheck with
    | some t => if 30 < now - t then { v with isActive := true, consecutiveFailures := 0 } else v
    | none => v
  else v

/-- Embedding of the reactivation sweep of `health_monitor_loop` (source lines
1643 to 1651), applied to every vault. -/
def healthReactivate (now : ℚ) (s : VaultData) : VaultData :=
  { s with vaults := s.vaults.map (fun p => (p.1, reactivateVault now p.2)) }

/-- A raw venue position as reported by the holdings source: the coin, the
`szi` field as the literal string reported, and its numeric value.  A missing
`szi` field is reported as the literal "0" (the `pos_data.get` default). -/
structure RawPosition where
  coin : String
  sziLit : String
  sziVal : ℚ
deriving DecidableEq

/-- Embedding of the parsing loop of `HyperliquidAdvancedBot.get_vault_positions`:
a position is stored only when its size string is non-empty and not the
literal "0", and the stored size is the absolute value of the signed size. -/
def parsePositions (raws : List RawPosition) : Snapshot :=
  raws.foldl (fun acc r =>
    if r.sziLit ≠ "" ∧ r.sziLit ≠ "0" then ainsert acc r.coin |r.sziVal| else acc) []

/-- Embedding of the `Trade` dataclass of
`src/azure_deployment/confluence_engine.py` (fields the analyzer writes). -/
structure Trade where
  address : String
  asset : String
  direction : String
  size : ℚ
  price : ℚ
  valueUsd : ℚ
deriving DecidableEq

/-- The per-asset body of `ConfluenceEngine.analyze_position_change`: emit a
trade only when the absolute size change exceeds 0.001, a positive mid price
is known, and the USD value reaches the minimum; float arithmetic of the
source is idealized as exact rational arithmetic. -/
def azureTradeFor (address : String) (oldM newM : List (String × ℚ))
    (mids : List (String × ℚ)) (minTradeValue : ℚ) (asset : String) : Option Trade :=
  let oldSize := (alookup oldM asset).getD 0
  let newSize := (alookup newM asset).getD 0
  let sizeChange := |newSize - oldSize|
  if 1/1000 < sizeChange then
    let currentPrice := (alookup mids asset).getD 0
    if 0 < currentPrice then
      let valueUsd := sizeChange * currentPrice
      if minTradeValue ≤ valueUsd then
        some { address := address, asset := asset,
               direction := if oldSize < newSize then "LONG" else "SHORT",
               size := sizeChange, price := currentPrice, valueUsd := valueUsd }
      else none
    else none
  else none

/-- Embedding of `ConfluenceEngine.analyze_position_change`: `none` inputs are
falsy user states (the early return), otherwise the per-asset analysis runs
over the union of assets present in either side. -/
def analyzePositionChange (address : String) (old new : Option (List (String × ℚ)))
    (mids : List (String × ℚ)) (minTradeValue : ℚ) : List Trade :=
  match old, new with
  | some o, some n =>
      ((o.map Prod.fst ++ n.map Prod.fst).dedup).filterMap
        (azureTradeFor address o n mids minTradeValue)
  | _, _ => []

/-- Sample trigger event used by concrete witnesses. -/
def sampleEvent : TradeEvent :=
  { vaultName := "A", vaultAddress := "0xaaaaaaaaaaaaaaaaaaaaaaaaaaaaaaaaaaaaaaaa",
    coin := "BTC", oldSize := 0, newSize := 10, timestamp := 0 }

/-- Sample registered vault that has completed its first scan. -/
def sampleVault : VaultInfo :=
  { VaultInfo.create "0xaaaaaaaaaaaaaaaaaaaaaaaaaaaaaaaaaaaaaaaa" "A" with firstScanCompleted := true }

/-- Sample state with one registered vault and otherwise the init defaults. -/
def sampleState : VaultData :=
  { initialVaultData with vaults := [("A", sampleVault)] }

/-- Sample vault that has not yet completed its first scan. -/
def freshVault : VaultInfo := VaultInfo.create "0xbbbbbbbbbbbbbbbbbbbbbbbbbbbbbbbbbbbbbbbb" "B"

/-- Sample state registering the fresh vault. -/
def freshState : VaultData :=
  { initialVaultData with vaults := [("B", freshVault)] }

/-- Sample deactivated vault: three consecutive failures, last success at 0. -/
def sickVault : VaultInfo :=
  { VaultInfo.create "0xcccccccccccccccccccccccccccccccccccccccc" "C" with
    isActive := false, consecutiveFailures := 3, lastSuccessfulCheck := some 0 }

/-- Sample state registering the deactivated vault. -/
def sickState : VaultData :=
  { initialVaultData with vaults := [("C", sickVault)] }

/-- Sample state with an active cooldown for (sampleVault, BTC) written at 0. -/
def cooldownState : VaultData := setCooldown 0 sampleVault.address "BTC" sampleState

end VaultBot

namespace VaultBot

/-! Helper lemmas about the association-list embedding of Python dicts. -/

theorem alookup_ainsert_self {α : Type} (l : List (String × α)) (k : String) (v : α) :
    alookup (ainsert l k v) k = some v := by
  induction l with
  | nil => simp [ainsert, alookup]
  | cons p t ih =>
    obtain ⟨k0, v0⟩ := p
    by_cases h : k0 = k
    · simp [ainsert, h, alookup]
    · simp [ainsert, h, alookup, ih]

theorem alookup_ainsert_ne {α : Type} (l : List (String × α)) (k k' : String) (v : α)
    (h : k' ≠ k) : alookup (ainsert l k v) k' = alookup l k' := by
  have hkk : ¬ (k = k') := fun hx => h hx.symm
  induction l with
  | nil => simp [ainsert, alookup, hkk]
  | cons p t ih =>
    obtain ⟨k0, v0⟩ := p
    by_cases h0 : k0 = k
    · subst h0
      simp [ainsert, alookup, hkk]
    · by_cases h1 : k0 = k'
      · simp [ainsert, h0, alookup, h1, h]
      · simp [ainsert, h0, alookup, h1, ih]

theorem alookup_isSome_iff {α : Type} (m : List (String × α)) (c : String) :
    (alookup m c).isSome = true ↔ c ∈ m.map Prod.fst := by
  induction m with
  | nil => simp [alookup]
  | cons p t ih =>
    obtain ⟨k0, v0⟩ := p
    by_cases h : k0 = c
    · simp [alookup, h]
    · simp [alookup, h, ih, Ne.symm h]

/-- Length of the dedup of a list with one element appended: the count of
distinct elements grows by one exactly when the element is new. -/
theorem dedup_length_append (l : List String) (v : String) :
    ((l ++ [v]).dedup).length = l.dedup.length + (if v ∈ l then 0 else 1) := by
  rw [← List.card_toFinset, ← List.card_toFinset, List.toFinset_append]
  have h1 : ([v] : List String).toFinset = {v} := by simp
  rw [h1, Finset.union_comm, ← Finset.insert_eq]
  by_cases h : v ∈ l
  · rw [Finset.insert_eq_self.mpr (List.mem_toFinset.mpr h)]
    simp [h]
  · rw [Finset.card_insert_of_not_mem (fun hc => h (List.mem_toFinset.mp hc))]
    simp [h]

/-- Filtering by a stronger predicate after a weaker one equals filtering by
the stronger predicate alone. -/
theorem filter_filter_absorb {α : Type} (p q : α → Bool) (l : List α)
    (h : ∀ a, q a = true → p a = true) : (l.filter p).filter q = l.filter q := by
  induction l with
  | nil => rfl
  | cons a t ih =>
    cases hq : q a with
    | true =>
      have hp : p a = true := h a hq
      simp only [List.filter_cons, hp, hq, if_true, ite_true]
      rw [ih]
    | false =>
      cases hp : p a with
      | true =>
        simp only [List.filter_cons, hp, hq]
        simp only [ite_true, ite_false, if_true, Bool.false_eq_true, if_false]
        rw [List.filter_cons, hq]
        simp only [Bool.false_eq_true, if_false]
        exact ih
      | false =>
        simp only [List.filter_cons, hp, hq, Bool.false_eq_true, if_false]
        exact ih

theorem any_eq_mem_map {α : Type} (g : α → String) (l : List α) (v : String) :
    (l.any (fun x => g x == v) = true) ↔ v ∈ l.map g := by
  simp only [List.any_eq_true, List.mem_map, beq_iff_eq]

/-- Re-querying the confluence window immediately after the insertion of the
triggering event returns the prior window with the event appended at the end. -/
theorem getConfluenceEvents_addTradeEvent (e : TradeEvent) (s : VaultData)
    (hW : 0 < s.confluenceWindowMinutes) :
    getConfluenceEvents e.coin e.timestamp (addTradeEvent e.timestamp e s) =
      getConfluenceEvents e.coin e.timestamp s ++ [e] := by
  unfold getConfluenceEvents addTradeEvent
  dsimp only
  rw [filter_filter_absorb
    (fun x => decide (e.timestamp - s.confluenceWindowMinutes < x.timestamp))
    (fun x => decide (x.coin = e.coin) && decide (e.timestamp - s.confluenceWindowMinutes < x.timestamp))
    (s.tradeEvents ++ [e])
    (by intro a ha
        have := (Bool.and_eq_true _ _).mp ha
        exact this.2)]
  rw [List.filter_append]
  congr 1
  have hts : e.timestamp - s.confluenceWindowMinutes < e.timestamp := by linarith
  simp [hts]

/-- Unfolding characterization of the two-phase instrument evaluation: the
event is always inserted, and the group is returned exactly when the projected
unique-entity count meets the threshold. -/
theorem evaluateConfluence_eq (e : TradeEvent) (s : VaultData) :
    evaluateConfluence e s =
      (addTradeEvent e.timestamp e s,
       if s.confluenceThreshold ≤ confluenceProjectedTotal s e then
         some (getConfluenceEvents e.coin e.timestamp (addTradeEvent e.timestamp e s))
       else none) := by
  have hiff := any_eq_mem_map TradeEvent.vaultName (getConfluenceEvents e.coin e.timestamp s)
    e.vaultName
  simp only [evaluateConfluence, confluenceProjectedTotal, projectedUniqueCount, uniqueVaultCount]
  rw [← apply_ite (Prod.mk (addTradeEvent e.timestamp e s))]
  refine congrArg (Prod.mk _) ?_
  have hnum : (if ((getConfluenceEvents e.coin e.timestamp s).any
        (fun x => x.vaultName == e.vaultName)) = true then 0 else 1) =
      (if e.vaultName ∈ (getConfluenceEvents e.coin e.timestamp s).map TradeEvent.vaultName
        then (0 : Nat) else 1) := by
    by_cases hm : e.vaultName ∈ (getConfluenceEvents e.coin e.timestamp s).map
        TradeEvent.vaultName
    · rw [if_pos (hiff.mpr hm), if_pos hm]
    · rw [if_neg (fun hh => hm (hiff.mp hh)), if_neg hm]
  rw [hnum]

/-- C1: Two-phase confluence correctness.  For any state and any fresh
triggering event, whenever `evaluateConfluence` returns an alert group, the
distinct-entity count of that group is at least the configured confluence
threshold and the triggering event is a member of the returned group exactly
once; moreover, when the triggering entity already has an event for the same
instrument inside the window, inserting the triggering event does not increase
the distinct-entity count of the window. -/
theorem confluence_two_phase (s : VaultData) (e : TradeEvent)
    (hW : 0 < s.confluenceWindowMinutes) (hnew : e ∉ s.tradeEvents) :
    (∀ s' group, evaluateConfluence e s = (s', some group) →
        s.confluenceThreshold ≤ uniqueVaultCount group ∧ List.count e group = 1) ∧
    (e.vaultName ∈ (getConfluenceEvents e.coin e.timestamp s).map TradeEvent.vaultName →
      uniqueVaultCount (getConfluenceEvents e.coin e.timestamp (addTradeEvent e.timestamp e s)) =
        uniqueVaultCount (getConfluenceEvents e.coin e.timestamp s)) := by
  have hgrp := getConfluenceEvents_addTradeEvent e s hW
  have hnotin : e ∉ getConfluenceEvents e.coin e.timestamp s := by
    intro hmem
    exact hnew (List.mem_filter.mp hmem).1
  have huniq : uniqueVaultCount (getConfluenceEvents e.coin e.timestamp s ++ [e]) =
      uniqueVaultCount (getConfluenceEvents e.coin e.timestamp s) +
        (if e.vaultName ∈ (getConfluenceEvents e.coin e.timestamp s).map TradeEvent.vaultName
          then 0 else 1) := by
    unfold uniqueVaultCount
    rw [List.map_append]
    exact dedup_length_append _ _
  have hproj : uniqueVaultCount (getConfluenceEvents e.coin e.timestamp s ++ [e]) =
      confluenceProjectedTotal s e := by
    rw [huniq]
    unfold confluenceProjectedTotal projectedUniqueCount uniqueVaultCount
    rfl
  constructor
  · intro s' group heq
    rw [evaluateConfluence_eq, Prod.mk.injEq] at heq
    obtain ⟨h1, h2⟩ := heq
    split at h2
    case isTrue hcond =>
      rw [Option.some.injEq] at h2
      subst h2
      rw [hgrp]
      refine ⟨?_, ?_⟩
      · rw [hproj]
        exact hcond
      · rw [List.count_append, List.count_eq_zero.mpr hnotin]
        simp
    case isFalse hcond =>
      exact absurd h2 (by simp)
  · intro hm
    rw [hgrp, huniq, if_pos hm]
    omega

/-- Witness for C1: at the initial state with confluence threshold 1, the
concrete trigger yields an alert group with one distinct vault containing the
trigger exactly once. -/
theorem confluence_two_phase_witness :
    initialVaultData.confluenceThreshold ≤
        uniqueVaultCount (getConfluenceEvents "BTC" 0
          (addTradeEvent 0 sampleEvent initialVaultData)) ∧
      List.count sampleEvent (getConfluenceEvents "BTC" 0
        (addTradeEvent 0 sampleEvent initialVaultData)) = 1 := by
  have h := (confluence_two_phase initialVaultData sampleEvent
      (by norm_num [initialVaultData]) (by simp [initialVaultData]))
  exact h.1 (addTradeEvent 0 sampleEvent initialVaultData)
    (getConfluenceEvents "BTC" 0 (addTradeEvent 0 sampleEvent initialVaultData))
    (by with_unfolding_all decide)

/-- C6: Union-with-zero-default diffing.  The per-coin loop iterates exactly
over the coins present in either snapshot; the change test compares sizes
defaulted to 0 for an absent coin, so a full close and a fresh open fall under
the same rule as any other size change, and a coin absent from both snapshots
is never iterated and never produces an event. -/
theorem union_zero_default_diff (vault : VaultInfo) (now : ℚ) (cur prev : Snapshot)
    (c : String) :
    (c ∈ unionCoins cur prev ↔ ((alookup cur c).isSome = true ∨ (alookup prev c).isSome = true)) ∧
    ((detectedEvent vault now cur prev c).isSome = true ↔ getSize cur c ≠ getSize prev c) ∧
    (∀ e, detectedEvent vault now cur prev c = some e →
      e.oldSize = getSize prev c ∧ e.newSize = getSize cur c) ∧
    (∀ sz, alookup prev c = some sz → alookup cur c = none → sz ≠ 0 →
      detectedEvent vault now cur prev c =
        some { vaultName := vault.name, vaultAddress := vault.address, coin := c,
               oldSize := sz, newSize := 0, timestamp := now }) ∧
    (∀ sz, alookup cur c = some sz → alookup prev c = none → sz ≠ 0 →
      detectedEvent vault now cur prev c =
        some { vaultName := vault.name, vaultAddress := vault.address, coin := c,
               oldSize := 0, newSize := sz, timestamp := now }) ∧
    (alookup cur c = none → alookup prev c = none →
      detectedEvent vault now cur prev c = none) := by
  refine ⟨?_, ?_, ?_, ?_, ?_, ?_⟩
  · unfold unionCoins
    rw [List.mem_dedup, List.mem_append, alookup_isSome_iff, alookup_isSome_iff]
  · unfold detectedEvent
    by_cases h : getSize cur c = getSize prev c <;> simp [h]
  · intro e he
    unfold detectedEvent at he
    split at he
    · cases he
    · rw [Option.some.injEq] at he
      subst he
      exact ⟨rfl, rfl⟩
  · intro sz hp hc hsz
    unfold detectedEvent getSize
    rw [hp, hc]
    simp [Ne.symm hsz]
  · intro sz hc hp hsz
    unfold detectedEvent getSize
    rw [hp, hc]
    simp [hsz]
  · intro hc hp
    unfold detectedEvent getSize
    rw [hp, hc]
    simp

/-- Witness for C6: a full close of a 5-sized BTC position is detected as a
change event from size 5 to size 0. -/
theorem union_zero_default_diff_witness :
    detectedEvent sampleVault 0 [] [("BTC", 5)] "BTC" =
      some { vaultName := sampleVault.name, vaultAddress := sampleVault.address, coin := "BTC",
             oldSize := 5, newSize := 0, timestamp := 0 } := by
  exact (union_zero_default_diff sampleVault 0 [] [("BTC", 5)] "BTC").2.2.2.1 5
    (by with_unfolding_all decide) (by with_unfolding_all decide) (by with_unfolding_all decide)

/-- C2 counterexample: the main differ of `check_vault_changes` emits a change
event for a size change of 1/2000, which does not exceed 1/1000, the only
positive noise threshold configured anywhere in the repository (the azure
engine); the main differ therefore has no positive noise threshold. -/
theorem noise_threshold_counterexample :
    (detectedEvent sampleVault 0 [("X", 10 + 1/2000)] [("X", 10)] "X").isSome = true ∧
      |getSize [("X", (10 : ℚ) + 1/2000)] "X" - getSize [("X", (10 : ℚ))] "X"| ≤ 1/1000 := by
  constructor
  · with_unfolding_all decide
  · with_unfolding_all decide

/-- C2 (amended): the differ of `check_vault_changes` creates a ChangeEvent
exactly when the stored size changed at all, i.e. its effective noise
threshold is zero; only the azure-deployment engine applies a positive noise
threshold: it emits a trade only when the absolute size change exceeds 0.001,
and a snapshot pair whose per-asset size changes all stay at or below 0.001
yields no trades. -/
theorem noise_threshold_amended :
    (∀ (vault : VaultInfo) (now : ℚ) (cur prev : Snapshot) (c : String),
      detectedEvent vault now cur prev c = none ↔ getSize cur c = getSize prev c) ∧
    (∀ (addr : String) (old new : Option (List (String × ℚ)))
      (mids : List (String × ℚ)) (mv : ℚ) (t : Trade),
      t ∈ analyzePositionChange addr old new mids mv → 1/1000 < t.size) ∧
    (∀ (addr : String) (o n : List (String × ℚ)) (mids : List (String × ℚ)) (mv : ℚ),
      (∀ a ∈ o.map Prod.fst ++ n.map Prod.fst, |getSize n a - getSize o a| ≤ 1/1000) →
      analyzePositionChange addr (some o) (some n) mids mv = []) := by
  refine ⟨?_, ?_, ?_⟩
  · intro vault now cur prev c
    unfold detectedEvent
    by_cases h : getSize cur c = getSize prev c <;> simp [h]
  · intro addr old new mids mv t ht
    unfold analyzePositionChange at ht
    rcases old with _ | o
    · cases ht
    rcases new with _ | n
    · cases ht
    rw [List.mem_filterMap] at ht
    obtain ⟨a, _, ha⟩ := ht
    unfold azureTradeFor at ha
    dsimp only at ha
    split at ha
    case isTrue hgt =>
      split at ha
      case isTrue =>
        split at ha
        case isTrue =>
          rw [Option.some.injEq] at ha
          subst ha
          exact hgt
        case isFalse => cases ha
      case isFalse => cases ha
    case isFalse => cases ha
  · intro addr o n mids mv h
    unfold analyzePositionChange
    rw [List.filterMap_eq_nil_iff]
    intro a ha
    have hmem : a ∈ o.map Prod.fst ++ n.map Prod.fst := List.mem_dedup.mp ha
    have hle := h a hmem
    unfold azureTradeFor
    rw [if_neg]
    unfold getSize at hle
    exact fun hgt => absurd hle (not_le.mpr hgt)

/-- Witness for C2 (amended), part three: a snapshot pair whose only change is
1/2000 in asset X produces no azure trades. -/
theorem noise_threshold_amended_witness :
    analyzePositionChange "a" (some [("X", 1)]) (some [("X", 1 + 1/2000)]) [] 0 = [] := by
  exact (noise_threshold_amended).2.2 "a" [("X", 1)] [("X", 1 + 1/2000)] [] 0
    (by with_unfolding_all decide)

/-- Folding the parse step over reports that only ever report the literal "0"
for coin `c` leaves `c` absent. -/
theorem parse_foldl_none (raws : List RawPosition) (acc : Snapshot) (c : String)
    (hacc : alookup acc c = none)
    (h : ∀ r ∈ raws, r.coin = c → r.sziLit = "0") :
    alookup (raws.foldl (fun acc r =>
      if r.sziLit ≠ "" ∧ r.sziLit ≠ "0" then ainsert acc r.coin |r.sziVal| else acc) acc) c =
      none := by
  induction raws generalizing acc with
  | nil => exact hacc
  | cons r t ih =>
    rw [List.foldl_cons]
    apply ih
    · by_cases hcond : r.sziLit ≠ "" ∧ r.sziLit ≠ "0"
      · rw [if_pos hcond]
        have hcr : r.coin ≠ c := fun hx => hcond.2 (h r (List.mem_cons_self r t) hx)
        rw [alookup_ainsert_ne _ _ _ _ (Ne.symm hcr)]
        exact hacc
      · rw [if_neg hcond]
        exact hacc
    · intro x hx hxc
      exact h x (List.mem_cons_of_mem _ hx) hxc

/-- Any size stored by the parse fold is the absolute value of a reported
signed size for that coin. -/
theorem parse_foldl_some (raws : List RawPosition) (acc : Snapshot) (c : String) (q : ℚ)
    (h : alookup (raws.foldl (fun acc r =>
      if r.sziLit ≠ "" ∧ r.sziLit ≠ "0" then ainsert acc r.coin |r.sziVal| else acc) acc) c =
      some q) :
    alookup acc c = some q ∨ ∃ r ∈ raws, r.coin = c ∧ q = |r.sziVal| := by
  induction raws generalizing acc with
  | nil => exact Or.inl h
  | cons r t ih =>
    rw [List.foldl_cons] at h
    rcases ih _ h with hacc | ⟨x, hx, hxc, hxq⟩
    · by_cases hcond : r.sziLit ≠ "" ∧ r.sziLit ≠ "0"
      · rw [if_pos hcond] at hacc
        by_cases hcr : r.coin = c
        · subst hcr
          rw [alookup_ainsert_self, Option.some.injEq] at hacc
          exact Or.inr ⟨r, List.mem_cons_self r t, rfl, hacc.symm⟩
        · rw [alookup_ainsert_ne _ _ _ _ (fun hx2 => hcr hx2.symm)] at hacc
          exact Or.inl hacc
      · rw [if_neg hcond] at hacc
        exact Or.inl hacc
    · exact Or.inr ⟨x, List.mem_cons_of_mem _ hx, hxc, hxq⟩

/-- The per-coin loop body does nothing when the current and previous
snapshots coincide. -/
theorem processStep_self (vault : VaultInfo) (now : ℚ) (m : Snapshot) (s : VaultData)
    (c : String) : processStep vault now m m (s, []) c = (s, []) := by
  unfold processStep processCoin detectedEvent
  simp

/-- The whole per-coin loop does nothing when the snapshots coincide. -/
theorem foldl_processStep_self (vault : VaultInfo) (now : ℚ) (m : Snapshot)
    (coins : List String) (s : VaultData) :
    coins.foldl (processStep vault now m m) (s, []) = (s, []) := by
  induction coins with
  | nil => rfl
  | cons c t ih =>
    rw [List.foldl_cons, processStep_self, ih]

/-- C9: sizes are stored as absolute values and literal-zero rows are dropped.
A coin whose reports all carry the size string "0" is absent from the parsed
snapshot; every stored size is the absolute value of a reported signed size;
flipping the sign of the reported size yields the same parsed snapshot; equal
snapshots yield no detected change for any coin; and a poll whose snapshot
equals the stored previous positions produces no alert at all. -/
theorem absolute_size_storage (raws : List RawPosition) (c : String) :
    ((∀ r ∈ raws, r.coin = c → r.sziLit = "0") → alookup (parsePositions raws) c = none) ∧
    (∀ q, alookup (parsePositions raws) c = some q → ∃ r ∈ raws, r.coin = c ∧ q = |r.sziVal|) ∧
    (∀ (coin lit1 lit2 : String) (v : ℚ), lit1 ≠ "" → lit1 ≠ "0" → lit2 ≠ "" → lit2 ≠ "0" →
      parsePositions [⟨coin, lit1, v⟩] = parsePositions [⟨coin, lit2, -v⟩]) ∧
    (∀ (vault : VaultInfo) (now : ℚ) (m : Snapshot) (c2 : String),
      detectedEvent vault now m m c2 = none) ∧
    (∀ (now : ℚ) (vault : VaultInfo) (cur : Snapshot) (s : VaultData),
      vault.isActive = true → vault.firstScanCompleted = true →
      (alookup s.previousPositions vault.address).getD [] = cur →
      checkVaultChanges now vault (some cur) s =
        (updatePreviousPositions vault.address cur s, [])) := by
  refine ⟨?_, ?_, ?_, ?_, ?_⟩
  · intro h
    unfold parsePositions
    exact parse_foldl_none raws [] c rfl h
  · intro q h
    unfold parsePositions at h
    rcases parse_foldl_some raws [] c q h with hacc | hr
    · cases hacc
    · exact hr
  · intro coin lit1 lit2 v h1 h1z h2 h2z
    unfold parsePositions
    rw [List.foldl_cons, List.foldl_cons, List.foldl_nil, List.foldl_nil]
    rw [if_pos ⟨h1, h1z⟩, if_pos ⟨h2, h2z⟩]
    rw [abs_neg]
  · intro vault now m c2
    unfold detectedEvent
    rw [if_pos rfl]
  · intro now vault cur s ha hf hprev
    unfold checkVaultChanges
    rw [ha, if_neg (show ¬(true = false) by simp)]
    dsimp only
    rw [hprev, hf, if_neg (show ¬(true = false) by simp)]
    rw [foldl_processStep_self]

/-- Witness for C9: a sign flip of a 10-sized position parses to the same
snapshot. -/
theorem absolute_size_storage_witness :
    parsePositions [⟨"BTC", "10", 10⟩] = parsePositions [⟨"BTC", "-10", -10⟩] := by
  exact (absolute_size_storage [] "BTC").2.2.1 "BTC" "10" "-10" 10
    (by with_unfolding_all decide) (by with_unfolding_all decide)
    (by with_unfolding_all decide) (by with_unfolding_all decide)

/-- C8 counterexample: the claimed reject-iff condition fails on the code.  The
address consisting of 0x, forty hex digits and a trailing newline is not in
the 0x-plus-40-hex format, and no duplicate exists in the empty initial state,
so the claim predicts rejection; yet `add_vault` accepts it, because the `$`
anchor of the Python pattern also matches just before a trailing newline. -/
theorem add_rejection_counterexample :
    isCanonicalAddress "0x0000000000000000000000000000000000000000\n" = false ∧
    (addVault initialVaultData "0x0000000000000000000000000000000000000000\n" "v").2 = true := by
  constructor
  · with_unfolding_all decide
  · with_unfolding_all decide

/-- C8 (amended): an add-entity request is rejected, leaving the entity set,
previous-position map and cooldown map unchanged, exactly when the address
fails the compiled pattern (0x plus forty hex digits, optionally followed by
one trailing newline accepted by the `$` anchor), or the display name is
already registered, or the address equals a registered address
case-insensitively; otherwise the entity is registered with fresh previous
positions and cooldown entries. -/
theorem add_rejection_amended (s : VaultData) (address name : String) :
    ((addVault s address name).2 = false ↔
      (pyMatchAddress address = false ∨ (alookup s.vaults name).isSome = true ∨
        s.vaults.any (fun p => p.2.address.toLower == address.toLower) = true)) ∧
    ((addVault s address name).2 = false → (addVault s address name).1 = s) ∧
    ((addVault s address name).2 = true →
      alookup ((addVault s address name).1).vaults name = some (VaultInfo.create address name) ∧
      alookup ((addVault s address name).1).previousPositions address = some [] ∧
      alookup ((addVault s address name).1).lastAlerts address = some []) := by
  by_cases h1 : pyMatchAddress address = true
  · by_cases h2 : (alookup s.vaults name).isSome = true
    · refine ⟨?_, ?_, ?_⟩ <;> simp [addVault, h1, h2]
    · by_cases h3 : s.vaults.any (fun p => p.2.address.toLower == address.toLower) = true
      · refine ⟨?_, ?_, ?_⟩ <;> simp [addVault, h1, h2, h3]
      · refine ⟨?_, ?_, ?_⟩ <;>
          simp [addVault, h1, h2, h3, alookup_ainsert_self]
  · refine ⟨?_, ?_, ?_⟩ <;> simp [addVault, h1]

/-- Witness for C8 (amended): an invalid address is rejected with the state
left unchanged. -/
theorem add_rejection_amended_witness :
    (addVault initialVaultData "abc" "n").1 = initialVaultData := by
  exact (add_rejection_amended initialVaultData "abc" "n").2.1 (by with_unfolding_all decide)

/-- Updating the first vault with a given address through an
address-preserving function is reflected in the first-match address lookup. -/
theorem findVaultByAddress_cons (a n : String) (v : VaultInfo) (t : List (String × VaultInfo)) :
    findVaultByAddress a ((n, v) :: t) =
      if v.address = a then some v else findVaultByAddress a t := rfl

theorem updateFirstByAddress_cons (f : VaultInfo → VaultInfo) (a n : String) (v : VaultInfo)
    (t : List (String × VaultInfo)) :
    updateFirstByAddress f a ((n, v) :: t) =
      if v.address = a then (n, f v) :: t else (n, v) :: updateFirstByAddress f a t := rfl

theorem findVaultByAddress_updateFirst (f : VaultInfo → VaultInfo) (a : String)
    (l : List (String × VaultInfo)) (hf : ∀ v, (f v).address = v.address) :
    findVaultByAddress a (updateFirstByAddress f a l) = (findVaultByAddress a l).map f := by
  induction l with
  | nil => rfl
  | cons p t ih =>
    obtain ⟨n, v⟩ := p
    by_cases hv : v.address = a
    · rw [updateFirstByAddress_cons, if_pos hv, findVaultByAddress_cons,
        if_pos (by rw [hf v]; exact hv), findVaultByAddress_cons, if_pos hv]
      rfl
    · rw [updateFirstByAddress_cons, if_neg hv, findVaultByAddress_cons, if_neg hv,
        findVaultByAddress_cons, if_neg hv]
      exact ih

/-- Mapping an address-preserving function over the registry is reflected in
the first-match address lookup. -/
theorem findVaultByAddress_map (g : VaultInfo → VaultInfo) (a : String)
    (l : List (String × VaultInfo)) (hg : ∀ v, (g v).address = v.address) :
    findVaultByAddress a (l.map (fun p => (p.1, g p.2))) = (findVaultByAddress a l).map g := by
  induction l with
  | nil => rfl
  | cons p t ih =>
    obtain ⟨n, v⟩ := p
    by_cases hv : v.address = a
    · rw [List.map_cons, findVaultByAddress_cons, if_pos (by rw [hg v]; exact hv),
        findVaultByAddress_cons, if_pos hv]
      rfl
    · rw [List.map_cons, findVaultByAddress_cons, if_neg (by rw [hg v]; exact hv),
        findVaultByAddress_cons, if_neg hv]
      exact ih

/-- C5: entity health state machine.  A fetch failure increments the
consecutive-failure count and deactivates the entity once the count reaches 3;
a success resets the count to 0, records the instant and reactivates; and the
health sweep reactivates a deactivated entity with at least 3 failures once
more than 30 minutes have elapsed since its recorded last success, resetting
the count, with no success required in between. -/
theorem health_state_machine (s : VaultData) (a : String) (v : VaultInfo) (now rt : ℚ) :
    (findVaultByAddress a s.vaults = some v →
      findVaultByAddress a (markVaultFailure a s).vaults = some (failureUpdate v) ∧
      (failureUpdate v).consecutiveFailures = v.consecutiveFailures + 1 ∧
      (3 ≤ v.consecutiveFailures + 1 → (failureUpdate v).isActive = false) ∧
      (v.consecutiveFailures + 1 < 3 → (failureUpdate v).isActive = v.isActive)) ∧
    (findVaultByAddress a s.vaults = some v →
      findVaultByAddress a (markVaultSuccess a now rt s).vaults = some (successUpdate now rt v) ∧
      (successUpdate now rt v).consecutiveFailures = 0 ∧
      (successUpdate now rt v).isActive = true ∧
      (successUpdate now rt v).lastSuccessfulCheck = some now) ∧
    (∀ t, findVaultByAddress a s.vaults = some v → v.isActive = false →
      3 ≤ v.consecutiveFailures → v.lastSuccessfulCheck = some t → 30 < now - t →
      findVaultByAddress a (healthReactivate now s).vaults =
        some { v with isActive := true, consecutiveFailures := 0 }) := by
  refine ⟨?_, ?_, ?_⟩
  · intro hv
    refine ⟨?_, rfl, ?_, ?_⟩
    · unfold markVaultFailure
      rw [findVaultByAddress_updateFirst failureUpdate a s.vaults (fun u => rfl), hv]
      rfl
    · intro h3
      unfold failureUpdate
      simp only [if_pos h3]
    · intro h3
      unfold failureUpdate
      simp only [if_neg (not_le.mpr h3)]
  · intro hv
    refine ⟨?_, rfl, rfl, rfl⟩
    unfold markVaultSuccess
    rw [findVaultByAddress_updateFirst (successUpdate now rt) a s.vaults (fun u => rfl), hv]
    rfl
  · intro t hv hact h3 hlast h30
    unfold healthReactivate
    rw [findVaultByAddress_map (reactivateVault now) a s.vaults (?_), hv]
    · unfold reactivateVault
      rw [Option.map_some', if_pos ⟨hact, h3⟩, hlast]
      simp only [if_pos h30]
    · intro u
      unfold reactivateVault
      split
      · split
        · split <;> rfl
        · rfl
      · rfl

/-- Witness for C5: the deactivated sample vault with three failures and a
last success at time 0 is reactivated by the sweep at time 31. -/
theorem health_state_machine_witness :
    findVaultByAddress "0xcccccccccccccccccccccccccccccccccccccccc"
        (healthReactivate 31 sickState).vaults =
      some { sickVault with isActive := true, consecutiveFailures := 0 } := by
  exact (health_state_machine sickState "0xcccccccccccccccccccccccccccccccccccccccc"
      sickVault 31 0).2.2 0
    (by with_unfolding_all decide) (by with_unfolding_all decide)
    (by with_unfolding_all decide) (by with_unfolding_all decide)
    (by with_unfolding_all decide)

/-- Unfolding characterization of the theme evaluation for a classified
instrument: the theme event is always inserted, and the group is returned
exactly when the projected unique-entity count, keyed by the theme, meets the
theme threshold. -/
theorem checkThemeConfluence_eq (e : TradeEvent) (s : VaultData) (cat : String)
    (hcat : getTokenCategory e.coin = some cat) :
    checkThemeConfluence e s =
      (addThemeEvent e.timestamp (mkThemeEvent cat e) s,
       if s.themeThreshold ≤ themeProjectedTotal s cat e then
         some (cat, getThemeEvents cat e.timestamp
           (addThemeEvent e.timestamp (mkThemeEvent cat e) s))
       else none) := by
  have hiff := any_eq_mem_map ThemeEvent.vaultName (getThemeEvents cat e.timestamp s) e.vaultName
  simp only [checkThemeConfluence, themeProjectedTotal, projectedUniqueCount]
  rw [hcat]
  dsimp only
  rw [← apply_ite (Prod.mk (addThemeEvent e.timestamp (mkThemeEvent cat e) s))]
  refine congrArg (Prod.mk _) ?_
  have hnum : (if ((getThemeEvents cat e.timestamp s).any
        (fun x => x.vaultName == e.vaultName)) = true then 0 else 1) =
      (if e.vaultName ∈ (getThemeEvents cat e.timestamp s).map ThemeEvent.vaultName
        then (0 : Nat) else 1) := by
    by_cases hm : e.vaultName ∈ (getThemeEvents cat e.timestamp s).map ThemeEvent.vaultName
    · rw [if_pos (hiff.mpr hm), if_pos hm]
    · rw [if_neg (fun hh => hm (hiff.mp hh)), if_neg hm]
  rw [hnum]

/-- C7: the theme detector refines the instrument detector.  Theme confluence
runs only for instruments classified by the category table (an unclassified
instrument creates no ThemeEvent and leaves the state untouched); for a
classified instrument it performs the same two-phase count-before-insert
computation as the instrument detector, keyed by the theme name, so on
corresponding windows — equal projected vault-name sequences — the two
detectors compute equal projected unique-entity totals. -/
theorem theme_refines_instrument :
    (∀ (e : TradeEvent) (s : VaultData), getTokenCategory e.coin = none →
      checkThemeConfluence e s = (s, none)) ∧
    (∀ (e : TradeEvent) (s : VaultData) (cat : String), getTokenCategory e.coin = some cat →
      checkThemeConfluence e s =
        (addThemeEvent e.timestamp (mkThemeEvent cat e) s,
         if s.themeThreshold ≤ themeProjectedTotal s cat e then
           some (cat, getThemeEvents cat e.timestamp
             (addThemeEvent e.timestamp (mkThemeEvent cat e) s))
         else none)) ∧
    (∀ (e : TradeEvent) (s : VaultData),
      evaluateConfluence e s =
        (addTradeEvent e.timestamp e s,
         if s.confluenceThreshold ≤ confluenceProjectedTotal s e then
           some (getConfluenceEvents e.coin e.timestamp (addTradeEvent e.timestamp e s))
         else none)) ∧
    (∀ (e : TradeEvent) (st si : VaultData) (cat : String),
      (getThemeEvents cat e.timestamp st).map ThemeEvent.vaultName =
        (getConfluenceEvents e.coin e.timestamp si).map TradeEvent.vaultName →
      themeProjectedTotal st cat e = confluenceProjectedTotal si e) := by
  refine ⟨?_, ?_, ?_, ?_⟩
  · intro e s h
    unfold checkThemeConfluence
    rw [h]
  · intro e s cat h
    exact checkThemeConfluence_eq e s cat h
  · intro e s
    exact evaluateConfluence_eq e s
  · intro e st si cat h
    unfold themeProjectedTotal confluenceProjectedTotal
    rw [h]

/-- Witness for C7: an unclassified instrument creates no theme event and no
theme alert. -/
theorem theme_refines_instrument_witness :
    checkThemeConfluence
        { vaultName := "A", vaultAddress := "0xa", coin := "ZZZ", oldSize := 0, newSize := 1,
          timestamp := 0 } initialVaultData = (initialVaultData, none) := by
  exact theme_refines_instrument.1
    { vaultName := "A", vaultAddress := "0xa", coin := "ZZZ", oldSize := 0, newSize := 1,
      timestamp := 0 } initialVaultData (by with_unfolding_all decide)

/-- C10: a change event suppressed by an active cooldown is dropped before any
state insertion: the per-coin body returns the state completely unchanged
(instrument window, theme window and cooldown table included) and emits no
alert, while the surrounding check still stores the fetched snapshot as the
previous positions at the end. -/
theorem cooldown_drop_frame (vault : VaultInfo) (now : ℚ) (cur prev : Snapshot)
    (s : VaultData) (c : String) :
    (getSize cur c ≠ getSize prev c → isCooldownActive now vault.address c s = true →
      processCoin vault now cur prev s c = (s, [])) ∧
    (∀ cur2 : Snapshot, vault.isActive = true → vault.firstScanCompleted = true →
      alookup ((checkVaultChanges now vault (some cur2) s).1).previousPositions vault.address =
        some cur2) := by
  constructor
  · intro hne hcd
    unfold processCoin detectedEvent
    rw [if_neg hne]
    dsimp only
    simp [hcd]
  · intro cur2 ha hf
    unfold checkVaultChanges
    rw [ha, if_neg (show ¬(true = false) by simp)]
    dsimp only
    rw [hf, if_neg (show ¬(true = false) by simp)]
    unfold updatePreviousPositions
    dsimp only
    rw [alookup_ainsert_self]

/-- Witness for C10: with a cooldown for (sample vault, BTC) written at time 0,
a BTC size change at time 1 is dropped with the state unchanged. -/
theorem cooldown_drop_frame_witness :
    processCoin sampleVault 1 [("BTC", 2)] [("BTC", 1)] cooldownState "BTC" =
      (cooldownState, []) := by
  exact (cooldown_drop_frame sampleVault 1 [("BTC", 2)] [("BTC", 1)] cooldownState "BTC").1
    (by with_unfolding_all decide) (by with_unfolding_all decide)

theorem setCooldown_vaults (now : ℚ) (a c : String) (st : VaultData) :
    (setCooldown now a c st).vaults = st.vaults := rfl

theorem getVaultByName_setCooldown (now : ℚ) (a c n : String) (st : VaultData) :
    getVaultByName (setCooldown now a c st) n = getVaultByName st n := rfl

theorem lookupLastAlert_congr (s s' : VaultData) (h : s.lastAlerts = s'.lastAlerts)
    (a c : String) : lookupLastAlert s a c = lookupLastAlert s' a c := by
  unfold lookupLastAlert
  rw [h]

theorem getVaultByName_congr (s s' : VaultData) (h : s.vaults = s'.vaults) (n : String) :
    getVaultByName s n = getVaultByName s' n := by
  unfold getVaultByName
  rw [h]

/-- Effect of one cooldown write on the nested lookup. -/
theorem lookupLastAlert_setCooldown (now : ℚ) (a' c' : String) (st : VaultData)
    (a c : String) :
    lookupLastAlert (setCooldown now a' c' st) a c =
      if a = a' ∧ c = c' then some now else lookupLastAlert st a c := by
  unfold lookupLastAlert setCooldown
  dsimp only
  by_cases ha : a = a'
  · subst ha
    rw [alookup_ainsert_self]
    dsimp only
    by_cases hc : c = c'
    · subst hc
      rw [alookup_ainsert_self, if_pos ⟨rfl, rfl⟩]
    · rw [alookup_ainsert_ne _ _ _ _ hc, if_neg (fun hx => hc hx.2)]
      cases h : alookup st.lastAlerts a with
      | none => simp [h, alookup]
      | some m => simp [h]
  · rw [alookup_ainsert_ne _ _ _ _ ha, if_neg (fun hx => ha hx.1)]

theorem setGroupCooldowns_cons (now : ℚ) (c : String) (g : TradeEvent) (t : List TradeEvent)
    (st : VaultData) :
    setGroupCooldowns now c (g :: t) st =
      setGroupCooldowns now c t
        (match getVaultByName st g.vaultName with
         | some v => setCooldown now v.address c st
         | none => st) := rfl

theorem setGroupCooldowns_vaults (now : ℚ) (c : String) (G : List TradeEvent) :
    ∀ st : VaultData, (setGroupCooldowns now c G st).vaults = st.vaults := by
  induction G with
  | nil => intro st; rfl
  | cons g t ih =>
    intro st
    rw [setGroupCooldowns_cons]
    cases hv : getVaultByName st g.vaultName with
    | none => exact ih st
    | some v =>
      dsimp only
      rw [ih (setCooldown now v.address c st), setCooldown_vaults]

/-- The group-cooldown fold never erases an already-written cooldown stamp for
the same instrument: every write in the fold writes the same instant. -/
theorem setGroupCooldowns_persist (now : ℚ) (c : String) (G : List TradeEvent) :
    ∀ st : VaultData, ∀ a : String, lookupLastAlert st a c = some now →
      lookupLastAlert (setGroupCooldowns now c G st) a c = some now := by
  induction G with
  | nil => intro st a h; exact h
  | cons g t ih =>
    intro st a h
    rw [setGroupCooldowns_cons]
    cases hv : getVaultByName st g.vaultName with
    | none => exact ih st a h
    | some v =>
      dsimp only
      apply ih
      rw [lookupLastAlert_setCooldown]
      split_ifs with hif
      · rfl
      · exact h

/-- After the group-cooldown fold, every resolvable vault named in the group
has the cooldown stamp for the instrument set to the alert instant. -/
theorem setGroupCooldowns_mem (now : ℚ) (c : String) (G : List TradeEvent) (ev : TradeEvent)
    (v : VaultInfo) :
    ∀ st : VaultData, ev ∈ G → getVaultByName st ev.vaultName = some v →
      lookupLastAlert (setGroupCooldowns now c G st) v.address c = some now := by
  induction G with
  | nil =>
    intro st hev _
    cases hev
  | cons g t ih =>
    intro st hev hv
    rw [setGroupCooldowns_cons]
    rcases List.mem_cons.mp hev with heq | hmem
    · subst heq
      rw [hv]
      dsimp only
      apply setGroupCooldowns_persist
      rw [lookupLastAlert_setCooldown, if_pos ⟨rfl, rfl⟩]
    · cases hg : getVaultByName st g.vaultName with
      | none => exact ih st hmem hv
      | some w =>
        dsimp only
        apply ih
        · exact hmem
        · rw [getVaultByName_setCooldown]
          exact hv

theorem checkThemeConfluence_lastAlerts (e : TradeEvent) (s : VaultData) :
    ((checkThemeConfluence e s).1).lastAlerts = s.lastAlerts := by
  unfold checkThemeConfluence
  cases h : getTokenCategory e.coin with
  | none => rfl
  | some cat =>
    dsimp only
    split <;> first | rfl | (split <;> rfl)

theorem checkThemeConfluence_vaults (e : TradeEvent) (s : VaultData) :
    ((checkThemeConfluence e s).1).vaults = s.vaults := by
  unfold checkThemeConfluence
  cases h : getTokenCategory e.coin with
  | none => rfl
  | some cat =>
    dsimp only
    split <;> first | rfl | (split <;> rfl)

theorem themeStage_lastAlerts (e : TradeEvent) (st : VaultData) (as : List Alert) :
    ((themeStage e st as).1).lastAlerts = st.lastAlerts := by
  unfold themeStage
  by_cases hen : st.themeAlertsEnabled = true
  · rw [if_pos hen]
    have hla := checkThemeConfluence_lastAlerts e st
    rcases hct : checkThemeConfluence e st with ⟨s3, o⟩
    rw [hct] at hla
    rcases o with _ | ⟨cat, tevents⟩
    · exact hla
    · dsimp only
      split <;> exact hla
  · rw [if_neg hen]

theorem themeStage_vaults (e : TradeEvent) (st : VaultData) (as : List Alert) :
    ((themeStage e st as).1).vaults = st.vaults := by
  unfold themeStage
  by_cases hen : st.themeAlertsEnabled = true
  · rw [if_pos hen]
    have hva := checkThemeConfluence_vaults e st
    rcases hct : checkThemeConfluence e st with ⟨s3, o⟩
    rw [hct] at hva
    rcases o with _ | ⟨cat, tevents⟩
    · exact hva
    · dsimp only
      split <;> exact hva
  · rw [if_neg hen]

/-- A confluence alert in the output of the theme stage was already in its
input alert list: the theme stage only ever appends theme alerts. -/
theorem themeStage_confluence_mem (e0 : TradeEvent) (st : VaultData) (as : List Alert)
    (e : TradeEvent) (G : List TradeEvent)
    (h : Alert.confluence e G ∈ (themeStage e0 st as).2) : Alert.confluence e G ∈ as := by
  unfold themeStage at h
  by_cases hen : st.themeAlertsEnabled = true
  · rw [if_pos hen] at h
    rcases hct : checkThemeConfluence e0 st with ⟨s3, o⟩
    rw [hct] at h
    rcases o with _ | ⟨cat, tevents⟩
    · exact h
    · dsimp only at h
      split at h
      · rcases List.mem_append.mp h with h2 | h2
        · exact h2
        · simp at h2
      · exact h
  · rw [if_neg hen] at h
    exact h

theorem evaluateConfluence_vaults (e : TradeEvent) (s : VaultData) :
    ((evaluateConfluence e s).1).vaults = s.vaults := by
  rw [evaluateConfluence_eq]
  rfl

/-- C4: group-wide cooldown.  Whenever the per-coin body emits a confluence
alert with group G, the cooldown stamp for the processed instrument is written
at the alert instant for the address of every vault resolvable from G, not
only the trigger vault; and whenever the state carries a cooldown stamp for
the processed (vault, instrument) pair whose cooldown window still covers the
processing instant, the body emits no alert at all. -/
theorem cooldown_group_wide (vault : VaultInfo) (now : ℚ) (cur prev : Snapshot)
    (s : VaultData) (c : String) :
    (∀ e G, Alert.confluence e G ∈ (processCoin vault now cur prev s c).2 →
      ∀ ev ∈ G, ∀ v, getVaultByName s ev.vaultName = some v →
        lookupLastAlert ((processCoin vault now cur prev s c).1) v.address c = some now) ∧
    (∀ t, lookupLastAlert s vault.address c = some t → now < t + s.cooldownMinutes →
      (processCoin vault now cur prev s c).2 = []) := by
  constructor
  · intro e G hmem ev hev v hv
    unfold processCoin at hmem ⊢
    generalize hd : detectedEvent vault now cur prev c = d at hmem ⊢
    cases d with
    | none => exact absurd hmem (by simp)
    | some e0 =>
      dsimp only at hmem ⊢
      by_cases hcd : isCooldownActive now vault.address c s = true
      · rw [if_pos hcd] at hmem
        exact absurd hmem (by simp)
      · rw [if_neg hcd] at hmem ⊢
        generalize hp : (evaluateConfluence e0 s).2 = p at hmem ⊢
        cases p with
        | none =>
          dsimp only at hmem
          have h2 := themeStage_confluence_mem e0 ((evaluateConfluence e0 s).1) [] e G hmem
          exact absurd h2 (by simp)
        | some group =>
          dsimp only at hmem ⊢
          have h2 := themeStage_confluence_mem e0
            (setGroupCooldowns now c group ((evaluateConfluence e0 s).1))
            [Alert.confluence e0 group] e G hmem
          have h3 := List.mem_singleton.mp h2
          injection h3 with hE hG
          subst hE
          subst hG
          rw [lookupLastAlert_congr _ _ (themeStage_lastAlerts e
            (setGroupCooldowns now c G ((evaluateConfluence e s).1)) [Alert.confluence e G])]
          apply setGroupCooldowns_mem now c G ev v ((evaluateConfluence e s).1) hev
          rw [getVaultByName_congr _ _ (evaluateConfluence_vaults e s)]
          exact hv
  · intro t hla hlt
    unfold processCoin
    generalize hd : detectedEvent vault now cur prev c = d
    cases d with
    | none => rfl
    | some e0 =>
      dsimp only
      have hcd : isCooldownActive now vault.address c s = true := by
        unfold isCooldownActive
        rw [hla]
        exact decide_eq_true hlt
      rw [if_pos hcd]

/-- Witness for C4: processing the concrete trigger at the sample state fires
an alert with group made of the trigger alone, and the cooldown stamp of the
trigger vault (the whole group) is written at the alert instant. -/
theorem cooldown_group_wide_witness :
    lookupLastAlert ((processCoin sampleVault 0 [("BTC", 10)] [] sampleState "BTC").1)
      sampleVault.address "BTC" = some 0 := by
  exact (cooldown_group_wide sampleVault 0 [("BTC", 10)] [] sampleState "BTC").1
    sampleEvent [sampleEvent] (by with_unfolding_all decide)
    sampleEvent (by with_unfolding_all decide)
    sampleVault (by with_unfolding_all decide)

theorem alookup_cons {α : Type} (k0 : String) (v0 : α) (t : List (String × α)) (k : String) :
    alookup ((k0, v0) :: t) k = if k0 = k then some v0 else alookup t k := rfl

theorem updatePreviousPositions_vaults (a : String) (m : Snapshot) (s : VaultData) :
    (updatePreviousPositions a m s).vaults = s.vaults := rfl

theorem processCoin_vaults (vault : VaultInfo) (now : ℚ) (cur prev : Snapshot)
    (s : VaultData) (c : String) :
    ((processCoin vault now cur prev s c).1).vaults = s.vaults := by
  unfold processCoin
  generalize hd : detectedEvent vault now cur prev c = d
  cases d with
  | none => rfl
  | some e0 =>
    dsimp only
    by_cases hcd : isCooldownActive now vault.address c s = true
    · rw [if_pos hcd]
    · rw [if_neg hcd]
      generalize hp : (evaluateConfluence e0 s).2 = p
      cases p with
      | none =>
        dsimp only
        rw [themeStage_vaults, evaluateConfluence_vaults]
      | some group =>
        dsimp only
        rw [themeStage_vaults, setGroupCooldowns_vaults, evaluateConfluence_vaults]

theorem foldl_processStep_vaults (vault : VaultInfo) (now : ℚ) (cur prev : Snapshot)
    (coins : List String) :
    ∀ acc : VaultData × List Alert,
      ((coins.foldl (processStep vault now cur prev) acc).1).vaults = acc.1.vaults := by
  induction coins with
  | nil => intro acc; rfl
  | cons c t ih =>
    intro acc
    rw [List.foldl_cons, ih]
    unfold processStep
    dsimp only
    exact processCoin_vaults vault now cur prev acc.1 c

/-- The vault registry after a check is either untouched or has had the
first-scan flag set for the checked address. -/
theorem checkVaultChanges_vaults (now : ℚ) (vault : VaultInfo) (fetched : Option Snapshot)
    (s : VaultData) :
    ((checkVaultChanges now vault fetched s).1).vaults = s.vaults ∨
    ((checkVaultChanges now vault fetched s).1).vaults =
      updateFirstByAddress (fun v => { v with firstScanCompleted := true }) vault.address
        s.vaults := by
  unfold checkVaultChanges
  by_cases ha : vault.isActive = false
  · rw [if_pos ha]
    exact Or.inl rfl
  · rw [if_neg ha]
    cases fetched with
    | none => exact Or.inl rfl
    | some cur =>
      dsimp only
      by_cases hf : vault.firstScanCompleted = false
      · rw [if_pos hf]
        exact Or.inr rfl
      · rw [if_neg hf]
        left
        dsimp only
        rw [updatePreviousPositions_vaults, foldl_processStep_vaults]

/-- Updating the first vault with a given address through a function that
preserves a set first-scan flag preserves every set flag, under lookup by
name. -/
theorem alookup_updateFirstByAddress_flag (f : VaultInfo → VaultInfo)
    (hf : ∀ u, u.firstScanCompleted = true → (f u).firstScanCompleted = true)
    (a : String) (l : List (String × VaultInfo)) (n : String) (v : VaultInfo)
    (h : alookup l n = some v) (hv : v.firstScanCompleted = true) :
    ∃ v2, alookup (updateFirstByAddress f a l) n = some v2 ∧
      v2.firstScanCompleted = true := by
  induction l with
  | nil => cases h
  | cons p t ih =>
    obtain ⟨n0, v0⟩ := p
    rw [alookup_cons] at h
    by_cases haddr : v0.address = a
    · rw [updateFirstByAddress_cons, if_pos haddr, alookup_cons]
      by_cases hn : n0 = n
      · rw [if_pos hn] at h
        rw [Option.some.injEq] at h
        rw [if_pos hn]
        exact ⟨f v0, rfl, hf v0 (by rw [h]; exact hv)⟩
      · rw [if_neg hn] at h
        rw [if_neg hn]
        exact ⟨v, h, hv⟩
    · rw [updateFirstByAddress_cons, if_neg haddr, alookup_cons]
      by_cases hn : n0 = n
      · rw [if_pos hn] at h
        rw [Option.some.injEq] at h
        rw [if_pos hn]
        exact ⟨v0, rfl, by rw [h]; exact hv⟩
      · rw [if_neg hn] at h
        rw [if_neg hn]
        exact ih h

/-- C3: first-observation suppression.  The first successful poll of an entity
whose first-scan flag is unset emits no alert and no event, stores the
snapshot as the previous positions and sets the flag; and a set flag survives
every subsequent check, fetch-failure mark, fetch-success mark and first-scan
completion, so it stays set for the entity lifetime within the embedded
operations. -/
theorem first_scan_suppression (now : ℚ) (vault : VaultInfo) (cur : Snapshot) (s : VaultData) :
    (vault.isActive = true → vault.firstScanCompleted = false →
      checkVaultChanges now vault (some cur) s =
        (completeFirstScan vault.address (updatePreviousPositions vault.address cur s), []) ∧
      ((checkVaultChanges now vault (some cur) s).1).tradeEvents = s.tradeEvents ∧
      ((checkVaultChanges now vault (some cur) s).1).themeEvents = s.themeEvents ∧
      alookup ((checkVaultChanges now vault (some cur) s).1).previousPositions vault.address =
        some cur) ∧
    (vault.isActive = true → vault.firstScanCompleted = false →
      ∀ v0, findVaultByAddress vault.address s.vaults = some v0 →
        findVaultByAddress vault.address ((checkVaultChanges now vault (some cur) s).1).vaults =
          some { v0 with firstScanCompleted := true }) ∧
    (∀ n v, alookup s.vaults n = some v → v.firstScanCompleted = true →
      ∀ fetched, ∃ v2,
        alookup ((checkVaultChanges now vault fetched s).1).vaults n = some v2 ∧
          v2.firstScanCompleted = true) ∧
    (∀ a n v, alookup s.vaults n = some v → v.firstScanCompleted = true →
      (∃ v3, alookup (markVaultFailure a s).vaults n = some v3 ∧
        v3.firstScanCompleted = true) ∧
      (∀ t r, ∃ v4, alookup (markVaultSuccess a t r s).vaults n = some v4 ∧
        v4.firstScanCompleted = true) ∧
      (∃ v5, alookup (completeFirstScan a s).vaults n = some v5 ∧
        v5.firstScanCompleted = true)) := by
  have hstate : vault.isActive = true → vault.firstScanCompleted = false →
      checkVaultChanges now vault (some cur) s =
        (completeFirstScan vault.address (updatePreviousPositions vault.address cur s), []) := by
    intro ha hf
    unfold checkVaultChanges
    rw [ha, if_neg (show ¬(true = false) by simp)]
    dsimp only
    rw [hf, if_pos rfl]
  refine ⟨?_, ?_, ?_, ?_⟩
  · intro ha hf
    refine ⟨hstate ha hf, ?_, ?_, ?_⟩
    · rw [hstate ha hf]
      rfl
    · rw [hstate ha hf]
      rfl
    · rw [hstate ha hf]
      unfold completeFirstScan updatePreviousPositions
      dsimp only
      rw [alookup_ainsert_self]
  · intro ha hf v0 hv0
    rw [hstate ha hf]
    dsimp only
    unfold completeFirstScan
    dsimp only
    rw [findVaultByAddress_updateFirst (fun v => { v with firstScanCompleted := true })
        vault.address ((updatePreviousPositions vault.address cur s).vaults) (fun u => rfl),
      updatePreviousPositions_vaults, hv0]
    rfl
  · intro n v h hv fetched
    rcases checkVaultChanges_vaults now vault fetched s with hcase | hcase
    · exact ⟨v, by rw [hcase]; exact h, hv⟩
    · rw [hcase]
      exact alookup_updateFirstByAddress_flag _ (fun u _ => rfl) vault.address s.vaults n v h hv
  · intro a n v h hv
    refine ⟨?_, ?_, ?_⟩
    · unfold markVaultFailure
      exact alookup_updateFirstByAddress_flag failureUpdate (fun u hu => hu) a s.vaults n v h hv
    · intro t r
      unfold markVaultSuccess
      exact alookup_updateFirstByAddress_flag (successUpdate t r) (fun u hu => hu) a
        s.vaults n v h hv
    · unfold completeFirstScan
      exact alookup_updateFirstByAddress_flag _ (fun u _ => rfl) a s.vaults n v h hv

/-- Witness for C3: the first poll of the fresh sample vault with one nonzero
holding emits nothing, stores the snapshot and sets the flag. -/
theorem first_scan_suppression_witness :
    checkVaultChanges 0 freshVault (some [("BTC", 10)]) freshState =
      (completeFirstScan freshVault.address
        (updatePreviousPositions freshVault.address [("BTC", 10)] freshState), []) := by
  exact ((first_scan_suppression 0 freshVault [("BTC", 10)] freshState).1
    (by with_unfolding_all decide) (by with_unfolding_all decide)).1

end VaultBot
